import Mathlib

/-!
Verification development for the xPool sourcing / pattern-learning server.

Shallow embedding conventions:
* Python strings are modelled as Lean String backed by List Char; only the
  ASCII fragment matters for the properties below (Python str.lower agrees
  with Char.toLower there).
* Python floats are modelled as rationals: the properties at stake are exact
  value identities (clamps, min, incremental means), not rounding behaviour.
* Python None-able values are Option; Python truthiness (None, 0, 0.0 and ""
  are falsy) is modelled explicitly by the truthy* helpers.
* The relational store is modelled as in-memory lists; uuid primary keys are
  modelled by a Nat counter standing for generate_uuid.
-/

namespace XPool

/-! ### Python string primitives (ASCII fragment) -/

/-- Python whitespace characters relevant to str.strip and str.split. -/
def isPyWs (c : Char) : Bool :=
  c = ' ' || c = '\t' || c = '\n' || c = '\r' || c = '\x0b' || c = '\x0c'

/-- Python str.strip restricted to whitespace. -/
def stripCL (l : List Char) : List Char :=
  ((l.dropWhile isPyWs).reverse.dropWhile isPyWs).reverse

/-- Python str.lower on the ASCII fragment, as a char list. -/
def lowerCL (s : String) : List Char :=
  s.data.map Char.toLower

/-- Helper for delAll: while the skip counter is positive, drop characters;
at zero, delete the pattern when it starts here (setting the counter to skip
its remaining characters), else keep the character. Structural in the list so
that it reduces in the kernel. -/
def delAllGo (pat : List Char) : Nat → List Char → List Char
  | _, [] => []
  | Nat.succ k, _ :: cs => delAllGo pat k cs
  | 0, c :: cs =>
    if !pat.isEmpty && pat.isPrefixOf (c :: cs) then
      delAllGo pat (pat.length - 1) cs
    else
      c :: delAllGo pat 0 cs

/-- Python s.replace(pat, "") for a nonempty pattern: delete every
occurrence, scanning left to right without overlap. -/
def delAll (pat l : List Char) : List Char :=
  delAllGo pat 0 l

/-- Helper for wordsCL carrying the reversed current word. -/
def wordsGo (cur : List Char) : List Char → List (List Char)
  | [] => if cur.isEmpty then [] else [cur.reverse]
  | c :: cs =>
    if isPyWs c then
      if cur.isEmpty then wordsGo [] cs else cur.reverse :: wordsGo [] cs
    else
      wordsGo (c :: cur) cs

/-- Python str.split() with no argument: maximal runs of non-whitespace. -/
def wordsCL (l : List Char) : List (List Char) :=
  wordsGo [] l

/-- Python substring containment (x in s) on char lists. -/
def isSubCL (pat : List Char) : List Char → Bool
  | [] => pat.isEmpty
  | c :: cs => pat.isPrefixOf (c :: cs) || isSubCL pat cs

/-- re.sub removing every character outside [a-z0-9\s]. -/
def keepSlugChar (c : Char) : Bool :=
  ('a' ≤ c && c ≤ 'z') || ('0' ≤ c && c ≤ '9') || isPyWs c

/-! ### services/memory.py : normalize_role_type -/

/-- The seniority markers removed (as substrings, everywhere) from the title,
in source order. -/
def seniorityMarkers : List (List Char) :=
  ["senior".data, "junior".data, "lead".data, "principal".data, "staff".data,
    "sr.".data, "jr.".data]

/-- The keyword to canonical-role mapping table, in source (dict insertion)
order. -/
def roleMappings : List (List Char × String) :=
  [("ios".data, "ios_engineer"),
    ("swift".data, "ios_engineer"),
    ("android".data, "android_engineer"),
    ("kotlin".data, "android_engineer"),
    ("frontend".data, "frontend_engineer"),
    ("front-end".data, "frontend_engineer"),
    ("react".data, "frontend_engineer"),
    ("backend".data, "backend_engineer"),
    ("back-end".data, "backend_engineer"),
    ("fullstack".data, "fullstack_engineer"),
    ("full-stack".data, "fullstack_engineer"),
    ("full stack".data, "fullstack_engineer"),
    ("machine learning".data, "ml_engineer"),
    ("ml ".data, "ml_engineer"),
    ("data scientist".data, "data_scientist"),
    ("data science".data, "data_scientist"),
    ("devops".data, "devops_engineer"),
    ("sre".data, "sre_engineer"),
    ("platform".data, "platform_engineer"),
    ("infrastructure".data, "infra_engineer"),
    ("python".data, "python_engineer"),
    ("golang".data, "go_engineer"),
    ("rust".data, "rust_engineer")]

/-- memory.normalize_role_type: lowercase and strip the title, delete the
seniority markers (stripping after each), return the canonical role of the
first mapping keyword occurring in the title, else slugify (keep [a-z0-9\s],
join the words with underscores, truncate to 50 chars, defaulting to
general_engineer when empty). -/
def normalize_role_type (job_title : String) : String :=
  let title := stripCL (lowerCL job_title)
  let title := seniorityMarkers.foldl (fun t m => stripCL (delAll m t)) title
  match roleMappings.find? (fun kv => isSubCL kv.1 title) with
  | some kv => kv.2
  | none =>
    let cleaned := title.filter keepSlugChar
    let slug := (List.intercalate ['_'] (wordsCL cleaned)).take 50
    if slug.isEmpty then "general_engineer" else String.mk slug

/-- The canonical roles that contain one of their own mapping keywords, so
that re-normalizing them returns them unchanged. -/
def selfFixedRoles : List String :=
  ["ios_engineer", "android_engineer", "frontend_engineer", "backend_engineer",
    "fullstack_engineer", "devops_engineer", "sre_engineer", "platform_engineer",
    "python_engineer", "rust_engineer"]

/-! ### Python truthiness helpers -/

/-- Truthiness of an optional string (None and "" are falsy). -/
def truthyS : Option String → Bool
  | some s => !s.isEmpty
  | none => false

/-- Truthiness of an optional natural number (None and 0 are falsy). -/
def truthyN : Option Nat → Bool
  | some n => n ≠ 0
  | none => false

/-- Truthiness of an optional rational (None and 0.0 are falsy). -/
def truthyQ : Option ℚ → Bool
  | some q => q ≠ 0
  | none => false

/-- Python (a or b) for an optional rational a and rational b. -/
def orQ (a : Option ℚ) (b : ℚ) : ℚ :=
  match a with
  | some q => if q = 0 then b else q
  | none => b

/-! ### database.py : data model -/

/-- database.CandidateType. -/
inductive CandidateType where
  | developer | influencer | recruiter | company | bot | unknown
deriving DecidableEq, Repr

/-- The .value string of a CandidateType. -/
def CandidateType.value : CandidateType → String
  | .developer => "developer"
  | .influencer => "influencer"
  | .recruiter => "recruiter"
  | .company => "company"
  | .bot => "bot"
  | .unknown => "unknown"

/-- The github_profile sub-dict stored inside tweet_analysis (the fields the
core reads back: developer_score, languages keys, top_repos). -/
structure GithubProfileInfo where
  developer_score : Option ℚ := none
  languages : List String := []
  top_repos : List String := []
deriving DecidableEq, Repr

/-- The x_classification sub-dict stored inside tweet_analysis (the fields
the core reads back). -/
structure XClassificationInfo where
  is_actively_coding : Bool := false
  green_flags : List String := []
deriving DecidableEq, Repr

/-- The tweet_analysis JSON payload, restricted to the keys the core reads. -/
structure TweetAnalysis where
  github_profile : Option GithubProfileInfo := none
  x_classification : Option XClassificationInfo := none
deriving DecidableEq, Repr

/-- database.Candidate: one persisted candidate row. The uuid primary key is
modelled as a Nat issued by the sourcing model; memory-side lookups use
string keys in an association list. -/
structure Candidate where
  id : Nat := 0
  x_user_id : Option String := none
  x_username : Option String := none
  github_id : Option String := none
  github_username : Option String := none
  display_name : Option String := none
  bio : Option String := none
  profile_url : Option String := none
  followers_count : Option Nat := none
  following_count : Option Nat := none
  github_url : Option String := none
  website_url : Option String := none
  email : Option String := none
  linkedin_url : Option String := none
  phone : Option String := none
  location : Option String := none
  skills_extracted : Option (List String) := none
  github_repos_count : Option Nat := none
  candidate_type : Option CandidateType := none
  type_confidence : Option ℚ := none
  tweet_analysis : Option TweetAnalysis := none
deriving DecidableEq, Repr

/-! ### collections.Counter.most_common -/

/-- Number of occurrences of x in l. -/
def countOcc (l : List String) (x : String) : Nat :=
  (l.filter (fun y => y = x)).length

/-- Distinct elements of l in first-occurrence order (Counter key order). -/
def dedupFirst (l : List String) : List String :=
  l.foldl (fun acc x => if x ∈ acc then acc else acc ++ [x]) []

/-- Stable insertion (descending by count): place x before the first element
with a strictly smaller count, preserving first-occurrence order on ties. -/
def insertByCount (cnt : String → Nat) (x : String) : List String → List String
  | [] => [x]
  | y :: ys => if cnt y < cnt x then x :: y :: ys else y :: insertByCount cnt x ys

/-- Keys sorted by descending count, ties in first-occurrence order. -/
def sortByCountDesc (cnt : String → Nat) (l : List String) : List String :=
  l.foldr (insertByCount cnt) []

/-- Counter(l).most_common(n): the n most frequent elements, most frequent
first, ties broken by first occurrence in l. -/
def mostCommon (l : List String) (n : Nat) : List String :=
  (sortByCountDesc (countOcc l) (dedupFirst l)).take n

/-! ### database.RoleSuccessPattern and memory.py pattern store -/

/-- database.RoleSuccessPattern row, with the column defaults of the model
(JSON lists default to [], counters to 0, confidence to 0.0, averages to
NULL). -/
structure RoleSuccessPattern where
  role_type : String
  successful_skills : List String := []
  successful_signals : List String := []
  successful_languages : List String := []
  rejection_patterns : List String := []
  avg_dev_score : Option ℚ := none
  avg_repo_count : Option ℚ := none
  avg_followers : Option ℚ := none
  preferred_candidate_types : List String := []
  hire_count : Nat := 0
  shortlist_count : Nat := 0
  reject_count : Nat := 0
  total_actions : Nat := 0
  confidence : ℚ := 0
  source_job_ids : List String := []
deriving DecidableEq, Repr

/-- The role_success_patterns table, keyed by the unique role_type column. -/
def PatternStore := List (String × RoleSuccessPattern)

instance : DecidableEq PatternStore := by
  unfold PatternStore; infer_instance

/-- Lookup of the pattern row for a role type. -/
def storeGet (store : PatternStore) (role_type : String) : Option RoleSuccessPattern :=
  match store.find? (fun kv => kv.1 = role_type) with
  | some kv => some kv.2
  | none => none

/-- Write back a pattern row: replace the row with its role_type, or insert
it when absent. -/
def storeSet (store : PatternStore) (role_type : String) (p : RoleSuccessPattern) :
    PatternStore :=
  match store with
  | [] => [(role_type, p)]
  | kv :: rest =>
    if kv.1 = role_type then (role_type, p) :: rest
    else kv :: storeSet rest role_type p

/-- memory.get_or_create_pattern: the existing row, or a freshly defaulted
one for the role type. -/
def get_or_create_pattern (store : PatternStore) (role_type : String) :
    RoleSuccessPattern :=
  match storeGet store role_type with
  | some p => p
  | none => { role_type := role_type }

/-! ### services/memory.py : signals and pattern updates -/

/-- The signals dict built by memory.extract_candidate_signals. -/
structure Signals where
  skills : List String := []
  languages : List String := []
  candidate_type : String := "unknown"
  dev_score : Option ℚ := none
  repo_count : Option Nat := none
  followers : Option Nat := none
  has_github : Bool := false
  has_x : Bool := false
  signals : List String := []
deriving DecidableEq, Repr

/-- memory.extract_candidate_signals: learnable signals of a candidate row,
including the derived signal strings in source order. -/
def extract_candidate_signals (c : Candidate) : Signals :=
  let skills := c.skills_extracted.getD []
  let candidate_type := match c.candidate_type with
    | some t => t.value
    | none => "unknown"
  let repo_count := c.github_repos_count
  let has_github := truthyS c.github_url || truthyS c.github_username
  let has_x := truthyS c.x_username
  let ta := c.tweet_analysis.getD {}
  let ghp := ta.github_profile
  let dev_score := match ghp with
    | some g => g.developer_score
    | none => none
  let languages := match ghp with
    | some g => g.languages
    | none => []
  let repo_count := match ghp with
    | some g => if truthyN repo_count then repo_count else some g.top_repos.length
    | none => repo_count
  let followers := c.followers_count
  let sigs : List String := []
  let sigs := sigs ++
    (if truthyQ dev_score && dev_score.getD 0 ≥ 70 then ["high_dev_score"] else [])
  let sigs := sigs ++
    (if truthyN repo_count && repo_count.getD 0 ≥ 10 then ["many_repos"] else [])
  let sigs := sigs ++
    (if has_github && has_x then ["multi_platform_presence"] else [])
  let sigs := sigs ++
    (if c.candidate_type = some .developer then ["verified_developer"] else [])
  let sigs := sigs ++
    (if c.candidate_type = some .influencer then ["influencer"] else [])
  let sigs := sigs ++
    (if truthyN followers && followers.getD 0 > 1000 &&
        (!truthyN repo_count || repo_count.getD 0 < 5) then
      ["high_follower_low_code"] else [])
  let xc := ta.x_classification
  let sigs := sigs ++
    (match xc with
      | some x => if x.is_actively_coding then ["actively_coding"] else []
      | none => [])
  let green_flags := match xc with
    | some x => x.green_flags
    | none => []
  let sigs := sigs ++
    (if green_flags.any (fun f =>
        isSubCL "ship".data (lowerCL f) || isSubCL "launch".data (lowerCL f)) then
      ["ships_products"] else [])
  { skills := skills, languages := languages, candidate_type := candidate_type,
    dev_score := dev_score, repo_count := repo_count, followers := followers,
    has_github := has_github, has_x := has_x, signals := sigs }

/-- memory._update_positive_signals: counters, top-N frequency lists and the
running averages, for a positive action. The Python expression
(pattern.avg or x) falls back to x when the stored average is None or 0.0. -/
def _update_positive_signals (p : RoleSuccessPattern) (s : Signals) (action : String) :
    RoleSuccessPattern :=
  let p :=
    { p with
      hire_count := if action = "hire" then p.hire_count + 1 else p.hire_count,
      shortlist_count :=
        if action ≠ "hire" && (action = "shortlist" || action = "contact") then
          p.shortlist_count + 1
        else p.shortlist_count }
  let p := { p with successful_skills := mostCommon (p.successful_skills ++ s.skills) 20 }
  let p :=
    { p with successful_languages := mostCommon (p.successful_languages ++ s.languages) 10 }
  let p :=
    { p with successful_signals := mostCommon (p.successful_signals ++ s.signals) 15 }
  let n : ℚ := (p.hire_count + p.shortlist_count : Nat)
  let p :=
    { p with
      avg_dev_score := match s.dev_score with
        | some x => some ((orQ p.avg_dev_score x * (n - 1) + x) / n)
        | none => p.avg_dev_score }
  let p :=
    { p with
      avg_repo_count := match s.repo_count with
        | some x => some ((orQ p.avg_repo_count (x : ℚ) * (n - 1) + (x : ℚ)) / n)
        | none => p.avg_repo_count }
  let p :=
    { p with
      avg_followers := match s.followers with
        | some x => some ((orQ p.avg_followers (x : ℚ) * (n - 1) + (x : ℚ)) / n)
        | none => p.avg_followers }
  { p with
    preferred_candidate_types :=
      if s.candidate_type ≠ "" && s.candidate_type ≠ "unknown" then
        mostCommon (p.preferred_candidate_types ++ [s.candidate_type]) 3
      else p.preferred_candidate_types }

/-- memory._update_negative_signals: reject counter and the bounded
rejection-pattern list, for a reject action. -/
def _update_negative_signals (p : RoleSuccessPattern) (s : Signals) :
    RoleSuccessPattern :=
  let p := { p with reject_count := p.reject_count + 1 }
  let rej := p.rejection_patterns
  let rej := rej ++
    (if s.candidate_type ≠ "" && s.candidate_type ≠ "developer" &&
        s.candidate_type ≠ "unknown" then [s.candidate_type] else [])
  let rej := rej ++
    s.signals.filter (fun sig => sig = "influencer" || sig = "high_follower_low_code")
  let rej := rej ++
    (if !truthyN s.repo_count || s.repo_count.getD 0 = 0 then ["no_repos"] else [])
  let rej := rej ++ (if !s.has_github then ["no_github"] else [])
  { p with rejection_patterns := mostCommon rej 10 }

/-- The tables read by memory.update_pattern_from_action: jobs (id to title)
and candidates (uuid to row). -/
structure MemDB where
  jobs : List (String × String) := []
  candidates : List (String × Candidate) := []

/-- Association-list lookup by first component. -/
def assocGet {α : Type} (l : List (String × α)) (k : String) : Option α :=
  match l.find? (fun kv => kv.1 = k) with
  | some kv => some kv.2
  | none => none

/-- memory.update_pattern_from_action: look up job and candidate, derive the
role type, get or create the pattern, apply the positive or negative update,
track the source job, bump total_actions and recompute confidence. Returns
the store unchanged when the job or the candidate is missing. -/
def update_pattern_from_action (db : MemDB) (store : PatternStore)
    (job_id candidate_id action : String) : PatternStore :=
  match assocGet db.jobs job_id, assocGet db.candidates candidate_id with
  | some title, some cand =>
    let role_type := normalize_role_type title
    let p := get_or_create_pattern store role_type
    let s := extract_candidate_signals cand
    let p :=
      if action = "hire" || action = "shortlist" || action = "contact" then
        let p := _update_positive_signals p s action
        if job_id ∈ p.source_job_ids then p
        else { p with source_job_ids := p.source_job_ids ++ [job_id] }
      else if action = "reject" then _update_negative_signals p s
      else p
    let p := { p with total_actions := p.total_actions + 1 }
    let p := { p with confidence := min 1 ((p.total_actions : ℚ) / 50) }
    storeSet store role_type p
  | _, _ => store

/-- database.RecruiterAction row (immutable event log entry). -/
structure RecruiterAction where
  job_id : String
  candidate_id : String
  action : String
  time_spent_seconds : Option Nat := none
deriving DecidableEq, Repr

/-- Incremental application of a recruiter-action log, in order, through
update_pattern_from_action (the online path the spec describes). -/
def incrementalReplay (db : MemDB) (store : PatternStore)
    (log : List RecruiterAction) : PatternStore :=
  log.foldl
    (fun s a => update_pattern_from_action db s a.job_id a.candidate_id a.action)
    store

/-- memory.rebuild_patterns_from_history: clear every pattern row, then
replay the whole recruiter-action log in order through
update_pattern_from_action; returns the rebuilt store together with the
patterns_created and actions_processed counts. The incoming store is the
state being discarded by the delete. -/
def rebuild_patterns_from_history (db : MemDB) (_discarded : PatternStore)
    (log : List RecruiterAction) : PatternStore × Nat × Nat :=
  let cleared : PatternStore := []
  let rebuilt := log.foldl
    (fun s a => update_pattern_from_action db s a.job_id a.candidate_id a.action)
    cleared
  (rebuilt, rebuilt.length, log.length)

/-! ### routers/jobs.py : track_recruiter_action -/

/-- database.CandidateStatus. -/
inductive CandidateStatus where
  | sourced | shortlisted | interviewing | rejected | hired
deriving DecidableEq, Repr

/-- database.InterviewStage (only the default used by the core). -/
inductive InterviewStage where
  | not_reached_out | reached_out | phone_screen | stage_1 | stage_2
  | final | offer | rejected | hired
deriving DecidableEq, Repr

/-- A job_candidates row: the link plus its per-job state. -/
structure JobCandidate where
  job_id : String
  candidate_id : String
  status : CandidateStatus := .sourced
  interview_stage : InterviewStage := .not_reached_out
deriving DecidableEq, Repr

/-- The database state seen by the jobs router (patterns included: the
endpoint leaves that table untouched). -/
structure RecState where
  jobs : List (String × String) := []
  candidates : List (String × Candidate) := []
  job_candidates : List JobCandidate := []
  recruiter_actions : List RecruiterAction := []
  patterns : PatternStore := []

/-- The status transition table of track_recruiter_action. -/
def actionToStatus (action : String) : Option CandidateStatus :=
  if action = "shortlist" then some .shortlisted
  else if action = "contact" then some .interviewing
  else if action = "reject" then some .rejected
  else if action = "hire" then some .hired
  else none

/-- jobs.track_recruiter_action: 404 (modelled as none) when job or
candidate is missing; otherwise update the JobCandidate status for the
mapped actions and append the immutable RecruiterAction row. No other table
is written. -/
def track_recruiter_action (st : RecState) (job_id candidate_id action : String)
    (time_spent_seconds : Option Nat) : Option RecState :=
  match assocGet st.jobs job_id, assocGet st.candidates candidate_id with
  | some _, some _ =>
    let jcs :=
      st.job_candidates.map (fun jc =>
        if jc.job_id = job_id && jc.candidate_id = candidate_id then
          match actionToStatus action with
          | some status => { jc with status := status }
          | none => jc
        else jc)
    let ra : RecruiterAction :=
      { job_id := job_id, candidate_id := candidate_id, action := action,
        time_spent_seconds := time_spent_seconds }
    some { st with
      job_candidates := jcs,
      recruiter_actions := st.recruiter_actions ++ [ra] }
  | _, _ => none

/-! ### services/memory.py : calculate_memory_adjusted_score -/

/-- The pattern snapshot dict returned by memory.get_pattern_for_job. -/
structure PatternSnapshot where
  role_type : String := ""
  successful_skills : List String := []
  successful_signals : List String := []
  successful_languages : List String := []
  rejection_patterns : List String := []
  avg_dev_score : Option ℚ := none
  avg_repo_count : Option ℚ := none
  preferred_candidate_types : List String := []
  confidence : ℚ := 0
  hire_count : Nat := 0
  shortlist_count : Nat := 0
  reject_count : Nat := 0
  total_actions : Nat := 0
deriving DecidableEq, Repr

/-- Distinct common elements of two lists (Python set intersection; the
set-iteration order used for display is modelled as first-occurrence
order). -/
def interCommon (a b : List String) : List String :=
  (dedupFirst a).filter (fun x => x ∈ b)

/-- Comma join used in the reason strings. -/
def joinComma (l : List String) : String :=
  String.intercalate ", " l

/-- memory.calculate_memory_adjusted_score: pass the base score through
untouched when the pattern is absent or untrusted (confidence below 0.2),
otherwise apply the bounded boosts and penalties and clamp into [0, 100].
Reason strings reproduce the source wording; the Python float interpolation
inside the dev-score reason is abstracted away. -/
def calculate_memory_adjusted_score (candidate : Candidate) (base_score : ℚ)
    (pattern : Option PatternSnapshot) : ℚ × List String :=
  match pattern with
  | none => (base_score, [])
  | some pat =>
    if pat.confidence < 1/5 then (base_score, [])
    else
      let adjustments : List String := []
      let score := base_score
      let s := extract_candidate_signals candidate
      let skill_matches := interCommon s.skills pat.successful_skills
      let boost1 : Nat := min (skill_matches.length * 2) 10
      let score := score + (if skill_matches ≠ [] then (boost1 : ℚ) else 0)
      let adjustments := adjustments ++
        (if skill_matches ≠ [] then
          ["+" ++ toString boost1 ++ " for skills: " ++ joinComma (skill_matches.take 3)]
        else [])
      let signal_matches := interCommon s.signals pat.successful_signals
      let boost2 : Nat := min (signal_matches.length * 3) 12
      let score := score + (if signal_matches ≠ [] then (boost2 : ℚ) else 0)
      let adjustments := adjustments ++
        (if signal_matches ≠ [] then
          ["+" ++ toString boost2 ++ " for signals: " ++ joinComma (signal_matches.take 3)]
        else [])
      let lang_matches := interCommon s.languages pat.successful_languages
      let boost3 : Nat := min (lang_matches.length * 2) 6
      let score := score + (if lang_matches ≠ [] then (boost3 : ℚ) else 0)
      let adjustments := adjustments ++
        (if lang_matches ≠ [] then
          ["+" ++ toString boost3 ++ " for languages: " ++ joinComma (lang_matches.take 3)]
        else [])
      let devBoost := truthyQ s.dev_score && truthyQ pat.avg_dev_score &&
        s.dev_score.getD 0 ≥ pat.avg_dev_score.getD 0
      let score := score + (if devBoost then 5 else 0)
      let adjustments := adjustments ++
        (if devBoost then ["+5 dev score above average"] else [])
      let rejection_matches := interCommon s.signals pat.rejection_patterns
      let penalty : Nat := min (rejection_matches.length * 5) 15
      let score := score - (if rejection_matches ≠ [] then (penalty : ℚ) else 0)
      let adjustments := adjustments ++
        (if rejection_matches ≠ [] then
          ["-" ++ toString penalty ++ " for rejection patterns: " ++
            joinComma (rejection_matches.take 3)]
        else [])
      let typeRejected := s.candidate_type ∈ pat.rejection_patterns
      let score := score - (if typeRejected then 10 else 0)
      let adjustments := adjustments ++
        (if typeRejected then
          ["-10 candidate type " ++ s.candidate_type ++ " often rejected"]
        else [])
      (max 0 (min 100 score), adjustments)

/-! ### services/x_api.py : profiles and the heuristic pre-score -/

/-- An X API user object, restricted to the fields the core reads.
entity_urls holds the expanded urls of the url entities followed by those of
the description entities, in API order (the two loops of
extract_urls_from_user run the same body over them in sequence). -/
structure XUser where
  id : Option String := none
  username : String := ""
  name : Option String := none
  description : Option String := none
  location : Option String := none
  followers_count : Option Nat := none
  following_count : Option Nat := none
  entity_urls : List String := []
deriving DecidableEq, Repr

/-- x_api.XAPIClient.extract_urls_from_user: first github.com link becomes
github_url, the first remaining link becomes website_url. -/
def extract_urls_from_user (u : XUser) : Option String × Option String :=
  u.entity_urls.foldl
    (fun acc url =>
      if isSubCL "github.com".data (lowerCL url) && acc.1.isNone then (some url, acc.2)
      else if acc.2.isNone then (acc.1, some url)
      else acc)
    (none, none)

/-- The candidate_data dict built by parse_user_to_candidate_data. -/
structure CandidateData where
  x_user_id : Option String
  x_username : String
  display_name : Option String
  bio : Option String
  profile_url : String
  followers_count : Nat
  following_count : Nat
  github_url : Option String
  website_url : Option String
  location : Option String
deriving DecidableEq, Repr

/-- x_api.XAPIClient.parse_user_to_candidate_data (raw_tweets omitted: the
core never branches on it). -/
def parse_user_to_candidate_data (u : XUser) : CandidateData :=
  let urls := extract_urls_from_user u
  { x_user_id := u.id
    x_username := u.username
    display_name := u.name
    bio := u.description
    profile_url := "https://x.com/" ++ u.username
    followers_count := u.followers_count.getD 0
    following_count := u.following_count.getD 0
    github_url := urls.1
    website_url := urls.2
    location := u.location }

/-- The strong positive developer keywords of quick_dev_score. -/
def dev_keywords : List String :=
  ["developer", "engineer", "dev", "programmer", "coder", "software",
    "backend", "frontend", "fullstack", "ios dev", "android dev", "web dev"]

/-- The tech terms of quick_dev_score. -/
def tech_terms : List String :=
  ["swift", "swiftui", "react", "python", "javascript", "typescript", "rust",
    "golang", "kotlin", "flutter", "node", "django", "fastapi", "aws",
    "docker", "kubernetes"]

/-- The negative bio keywords of quick_dev_score. -/
def negative_bio : List String :=
  ["influencer", "coach", "mentor", "tips", "advice", "follow for", "daily",
    "motivation", "crypto", "nft", "trading", "forex", "marketing", "seo",
    "growth", "viral"]

/-- re.search matching five consecutive digits, carrying the current run. -/
def digitRun : Nat → List Char → Bool
  | _, [] => false
  | run, c :: cs =>
    if '0' ≤ c && c ≤ '9' then run + 1 ≥ 5 || digitRun (run + 1) cs
    else digitRun 0 cs

/-- Whether the count of matched developer keywords in a bio is positive
(quick_dev_score adds a single +15 on the first match). -/
def devKeywordHit (bio : List Char) : Bool :=
  dev_keywords.any (fun kw => isSubCL kw.data bio)

/-- Count of matched tech terms in a bio. -/
def techTermCount (bio : List Char) : Nat :=
  (tech_terms.filter (fun t => isSubCL t.data bio)).length

/-- Count of matched negative keywords in a bio. -/
def negTermCount (bio : List Char) : Nat :=
  (negative_bio.filter (fun t => isSubCL t.data bio)).length

/-- Whether the bio carries a GitHub cross-link. -/
def githubInBio (bio : List Char) : Bool :=
  isSubCL "github".data bio || isSubCL "github.com".data bio

/-- x_api.XAPIClient.quick_dev_score: the additive/subtractive heuristic
pre-score over bio text, handle patterns, tweet text and the
follower/following ratio, clamped into [0, 100]. The lowercased display
name is computed by the source but never used. -/
def quick_dev_score (user : XUser) (tweet_text : String) : Int :=
  let bio := lowerCL (user.description.getD "")
  let username := lowerCL user.username
  let tweet := lowerCL tweet_text
  let score : Int := 50
  let score := score + (if devKeywordHit bio then 15 else 0)
  let score := score + (if githubInBio bio then 20 else 0)
  let score := score + ((min (techTermCount bio * 5) 20 : Nat) : Int)
  let score := score - 15 * (negTermCount bio : Int)
  let score := score - (if digitRun 0 username then 20 else 0)
  let score := score -
    (if isSubCL "bot".data username || isSubCL "news".data username ||
        isSubCL "job".data username then 30 else 0)
  let score := score +
    (if isSubCL "github.com".data tweet || isSubCL "pull request".data tweet ||
        isSubCL "merged".data tweet then 15 else 0)
  let score := score +
    (if isSubCL "#iosdev".data tweet || isSubCL "#swiftui".data tweet ||
        isSubCL "#reactjs".data tweet || isSubCL "#python".data tweet then 10 else 0)
  let score := score +
    (if isSubCL "i built".data tweet || isSubCL "i shipped".data tweet ||
        isSubCL "working on".data tweet then 10 else 0)
  let followers := user.followers_count.getD 0
  let following := user.following_count.getD 1
  let score := score - (if followers > 50000 && following < 500 then 20 else 0)
  max 0 (min 100 score)

/-! ### tasks/celery_tasks.py : helpers -/

/-- Splitting a char list on the slash character, keeping empty parts
(Python split with an explicit separator). -/
def splitSlashGo (cur : List Char) : List Char → List (List Char)
  | [] => [cur.reverse]
  | c :: cs =>
    if c = '/' then cur.reverse :: splitSlashGo [] cs
    else splitSlashGo (c :: cur) cs

/-- celery_tasks._extract_github_username: last path component of the url
after stripping trailing slashes; empty for a falsy url. -/
def _extract_github_username (github_url : String) : String :=
  if github_url.isEmpty then ""
  else
    let stripped := (github_url.data.reverse.dropWhile (fun c => c = '/')).reverse
    let parts := splitSlashGo [] stripped
    String.mk (parts.getLastD [])

/-! ### tasks/celery_tasks.py : sourcing state and per-profile steps -/

/-- The classification payload returned by the Grok collaborator
(classify_user_from_tweets), restricted to the keys the core reads. -/
structure Classification where
  candidate_type : String := "unknown"
  confidence : ℚ := 0
  recommendation : String := "skip"
  is_actively_coding : Bool := false
  green_flags : List String := []
deriving DecidableEq, Repr

/-- The x_classification payload persisted into tweet_analysis. -/
def Classification.info (cls : Classification) : XClassificationInfo :=
  { is_actively_coding := cls.is_actively_coding, green_flags := cls.green_flags }

/-- The relational state mutated by a sourcing run: job ids, candidate rows,
job_candidates links (job id, candidate id) and the uuid source modelled as
a counter. -/
structure SrcDB where
  jobs : List String := []
  candidates : List Candidate := []
  links : List (String × Nat) := []
  next_id : Nat := 0
deriving DecidableEq, Repr

/-- The storage-level error string of the job_candidates foreign key. -/
def fkErr : String := "job_candidates_job_id_fkey"

/-- Committing a JobCandidate insert: fails with the foreign-key error when
the parent job row is gone. -/
def commitLink (db : SrcDB) (job_id : String) (cid : Nat) : Except String SrcDB :=
  if job_id ∈ db.jobs then .ok { db with links := db.links ++ [(job_id, cid)] }
  else .error fkErr

/-- Python truthy (a or b) for optional strings. -/
def orS (a : Option String) (b : String) : String :=
  match a with
  | some s => if s.isEmpty then b else s
  | none => b

/-- The X-path mapping from a classification string to the stored enum. -/
def typeEnumOfString (s : String) : CandidateType :=
  if s = "developer" then .developer
  else if s = "influencer" then .influencer
  else if s = "recruiter" then .recruiter
  else if s = "company" then .company
  else if s = "bot" then .bot
  else .unknown

/-- Result of processing one X search result inside source_candidates_task:
the updated state plus this iteration's deltas of the analyzed, added and
skipped counters. -/
structure XStepOut where
  db : SrcDB
  seen : List String
  analyzed : Nat := 0
  added : Nat := 0
  skipped : Nat := 0
deriving DecidableEq, Repr

/-- One iteration of the tweet-search loop of source_candidates_task
(celery_tasks.py lines 300-436): dedupe the run-local seen set, quick-score
gate, dedupe by X user id, classify and gate, dedupe by the GitHub handle
extracted from the profile links, else persist a new candidate and its link.
The Grok classification for this user is a collaborator input. Storage
errors (the link foreign key) propagate as Except.error, since this task
re-raises every exception. -/
def xStep (db : SrcDB) (job_id : String) (seen : List String) (u : XUser)
    (tweet_text : String) (cls : Classification) (exclude_influencers : Bool) :
    Except String XStepOut :=
  match u.id with
  | none => .ok { db := db, seen := seen }
  | some user_id =>
    if user_id ∈ seen then .ok { db := db, seen := seen }
    else
      let seen := user_id :: seen
      if quick_dev_score u tweet_text < 30 then
        .ok { db := db, seen := seen, skipped := 1 }
      else
        match db.candidates.find? (fun c => c.x_user_id = some user_id) with
        | some existing =>
          if (job_id, existing.id) ∈ db.links then .ok { db := db, seen := seen }
          else do
            let db ← commitLink db job_id existing.id
            .ok { db := db, seen := seen }
        | none =>
          let ct := cls.candidate_type
          if exclude_influencers &&
              (ct = "influencer" || ct = "recruiter" || ct = "company" || ct = "bot") then
            .ok { db := db, seen := seen, analyzed := 1, skipped := 1 }
          else if exclude_influencers && cls.recommendation = "skip" &&
              cls.confidence > 3/5 then
            .ok { db := db, seen := seen, analyzed := 1, skipped := 1 }
          else
            let cd := parse_user_to_candidate_data u
            let gh_url := cd.github_url
            let gh_username := match gh_url with
              | some url => some (_extract_github_username url)
              | none => none
            let github_match :=
              if gh_url.isSome then
                db.candidates.find? (fun c =>
                  (c.github_url.isSome && c.github_url = gh_url) ||
                  (truthyS gh_username && c.github_username.isSome &&
                    c.github_username = gh_username))
              else none
            match github_match with
            | some existing =>
              if (job_id, existing.id) ∈ db.links then
                .ok { db := db, seen := seen, analyzed := 1 }
              else do
                let db ← commitLink db job_id existing.id
                .ok { db := db, seen := seen, analyzed := 1 }
            | none =>
              let cand : Candidate :=
                { id := db.next_id
                  x_user_id := cd.x_user_id
                  x_username := some cd.x_username
                  display_name := cd.display_name
                  bio := cd.bio
                  profile_url := some cd.profile_url
                  followers_count := some cd.followers_count
                  following_count := some cd.following_count
                  github_url := cd.github_url
                  github_username := gh_username
                  website_url := cd.website_url
                  location := cd.location
                  candidate_type := some (typeEnumOfString ct)
                  type_confidence := some cls.confidence
                  tweet_analysis := some { x_classification := some cls.info } }
              let db' := { db with
                candidates := db.candidates ++ [cand], next_id := db.next_id + 1 }
              do
                let db'' ← commitLink db' job_id cand.id
                .ok { db := db'', seen := seen, analyzed := 1, added := 1 }

/-- The full GitHub developer profile returned by
github_client.get_full_developer_profile, restricted to the keys the core
reads. -/
structure GhProfile where
  github_id : Option String := none
  developer_score : Option Int := none
  languages : List String := []
  bio_skills : List String := []
  x_username : Option String := none
  github_url : Option String := none
  display_name : Option String := none
  bio : Option String := none
  blog : Option String := none
  location : Option String := none
  email : Option String := none
  linkedin_url : Option String := none
  phone : Option String := none
  followers : Option Nat := none
  following : Option Nat := none
  public_repos : Option Nat := none
  top_repos : List String := []
  hireable : Option Bool := none
deriving DecidableEq, Repr

/-- Python str(gh_profile.get("github_id")): the string "None" when the key
is missing. -/
def githubIdStr (p : GhProfile) : String :=
  match p.github_id with
  | some s => s
  | none => "None"

/-- Result of processing one GitHub user inside source_from_github_task:
either continue with deltas of added, skipped and with-X counters, or the
graceful early return taken when the parent job vanished before the final
link write (the inserted candidate is rolled back). -/
inductive GhStepRes where
  | next (db : SrcDB) (added skipped withx : Nat)
  | jobGone (db : SrcDB) (added skipped withx : Nat)
deriving DecidableEq, Repr

/-- One iteration of the user loop of source_from_github_task
(celery_tasks.py lines 858-1052): dedupe by github_url containing the
login, profile-fetch and dev-score gates, optional X cross-profile fetch
and classification gate, dedupe by GitHub id or fetched X user id, else
persist a new candidate after verifying that the job still exists. The
profile fetch, X user fetch and classification are collaborator inputs.
A link commit against a deleted job surfaces as Except.error with the
foreign-key message, caught at task level. -/
def ghStep (db : SrcDB) (job_id login : String) (fetchProfile : Option GhProfile)
    (fetchXUser : Option XUser) (cls : Classification)
    (min_dev_score : Int) (require_x_profile : Bool) :
    Except String GhStepRes :=
  if login.isEmpty then .ok (.next db 0 0 0)
  else
    match db.candidates.find? (fun c =>
        match c.github_url with
        | some url => isSubCL login.data url.data
        | none => false) with
    | some existing =>
      if (job_id, existing.id) ∈ db.links then .ok (.next db 0 0 0)
      else do
        let db ← commitLink db job_id existing.id
        .ok (.next db 0 0 0)
    | none =>
      match fetchProfile with
      | none => .ok (.next db 0 1 0)
      | some p =>
        let dev_score := p.developer_score.getD 0
        if dev_score < min_dev_score then .ok (.next db 0 1 0)
        else
          let withx := if p.x_username.isSome then 1 else 0
          let x_data := if p.x_username.isSome then fetchXUser else none
          let classified := x_data.isSome
          let skipByX := classified &&
            (cls.candidate_type = "influencer" || cls.candidate_type = "recruiter" ||
              cls.candidate_type = "company" || cls.candidate_type = "bot") &&
            cls.confidence > 7/10
          if skipByX then .ok (.next db 0 1 withx)
          else if p.x_username.isNone && require_x_profile then
            .ok (.next db 0 1 withx)
          else
            let unique_skills := dedupFirst (p.languages ++ p.bio_skills)
            let type_enum : CandidateType :=
              if classified then
                if cls.candidate_type = "developer" then .developer
                else if cls.candidate_type = "influencer" then .influencer
                else .unknown
              else .developer
            let type_confidence : ℚ := if classified then cls.confidence else 4/5
            let github_id := githubIdStr p
            let x_user_id : Option String := match x_data with
              | some xd => xd.id
              | none => none
            match db.candidates.find? (fun c =>
                c.github_id = some github_id ||
                (truthyS x_user_id && c.x_user_id.isSome && c.x_user_id = x_user_id)) with
            | some existing =>
              if (job_id, existing.id) ∈ db.links then .ok (.next db 0 0 withx)
              else do
                let db ← commitLink db job_id existing.id
                .ok (.next db 1 0 withx)
            | none =>
              let cand : Candidate :=
                { id := db.next_id
                  github_id := some github_id
                  github_username := some login
                  x_user_id := x_user_id
                  x_username := p.x_username
                  display_name := some (orS p.display_name login)
                  bio := p.bio
                  profile_url := match p.x_username with
                    | some xu => some ("https://x.com/" ++ xu)
                    | none => p.github_url
                  followers_count := some (match x_data with
                    | some xd => xd.followers_count.getD 0
                    | none => p.followers.getD 0)
                  following_count := some (match x_data with
                    | some xd => xd.following_count.getD 0
                    | none => p.following.getD 0)
                  github_url := p.github_url
                  website_url := p.blog
                  location := p.location
                  email := p.email
                  linkedin_url := p.linkedin_url
                  phone := p.phone
                  candidate_type := some type_enum
                  type_confidence := some type_confidence
                  skills_extracted := some (unique_skills.take 15)
                  tweet_analysis := some
                    { github_profile := some
                        { developer_score := some (dev_score : ℚ)
                          languages := p.languages
                          top_repos := p.top_repos }
                      x_classification :=
                        if classified then some cls.info else none } }
              let db' := { db with
                candidates := db.candidates ++ [cand], next_id := db.next_id + 1 }
              if job_id ∈ db'.jobs then
                .ok (.next { db' with links := db'.links ++ [(job_id, cand.id)] }
                  1 0 withx)
              else
                .ok (.jobGone db 0 0 withx)

/-! ### tasks/celery_tasks.py : run loops with a concurrent job deletion -/

/-- An event during the tweet-search loop of source_candidates_task: one
search result (with its collaborator outputs) or a concurrent deletion of
the parent job. -/
inductive XEvent where
  | result (u : XUser) (tweet_text : String) (cls : Classification)
  | jobDeleted
deriving Repr

/-- Final counters of an X sourcing run. -/
structure XRunResult where
  db : SrcDB
  analyzed : Nat := 0
  added : Nat := 0
  skipped : Nat := 0
deriving DecidableEq, Repr

/-- The tweet-search loop of source_candidates_task: processes events in
order; every storage exception propagates out of the task (the except
handler rolls back and re-raises). -/
def xLoop (db : SrcDB) (job_id : String) (seen : List String)
    (analyzed added skipped : Nat) (exclude_influencers : Bool) :
    List XEvent → Except String XRunResult
  | [] => .ok { db := db, analyzed := analyzed, added := added, skipped := skipped }
  | .jobDeleted :: rest =>
    xLoop { db with jobs := db.jobs.erase job_id } job_id seen
      analyzed added skipped exclude_influencers rest
  | .result u tw cls :: rest =>
    match xStep db job_id seen u tw cls exclude_influencers with
    | .ok o =>
      xLoop o.db job_id o.seen (analyzed + o.analyzed) (added + o.added)
        (skipped + o.skipped) exclude_influencers rest
    | .error e => .error e

/-- An event during the user loop of source_from_github_task. -/
inductive GhEvent where
  | user (login : String) (fetchProfile : Option GhProfile)
      (fetchXUser : Option XUser) (cls : Classification)
  | jobDeleted
deriving Repr

/-- The task result of source_from_github_task: counters plus the error
field of the dict returned on a detected mid-flight job deletion. -/
structure GhRunResult where
  db : SrcDB
  candidates_added : Nat := 0
  candidates_skipped : Nat := 0
  candidates_with_x : Nat := 0
  error : Option String := none
deriving DecidableEq, Repr

/-- The user loop of source_from_github_task: processes events in order;
the missing-parent check before the final link write returns the partial
counts with an error, and an IntegrityError mentioning the job_candidates
foreign key is caught at task level and converted into the same graceful
result; other storage errors re-raise. -/
def ghLoop (db : SrcDB) (job_id : String) (added skipped withx : Nat)
    (min_dev_score : Int) (require_x_profile : Bool) :
    List GhEvent → Except String GhRunResult
  | [] =>
    .ok
      { db := db, candidates_added := added, candidates_skipped := skipped,
        candidates_with_x := withx }
  | .jobDeleted :: rest =>
    ghLoop { db with jobs := db.jobs.erase job_id } job_id added skipped withx
      min_dev_score require_x_profile rest
  | .user login prof xf cls :: rest =>
    match ghStep db job_id login prof xf cls min_dev_score require_x_profile with
    | .ok (.next db' a s w) =>
      ghLoop db' job_id (added + a) (skipped + s) (withx + w)
        min_dev_score require_x_profile rest
    | .ok (.jobGone db' a s w) =>
      .ok
        { db := db', candidates_added := added + a, candidates_skipped := skipped + s,
          candidates_with_x := withx + w,
          error := some "Job was deleted during sourcing" }
    | .error e =>
      if isSubCL fkErr.data e.data then
        .ok
          { db := db, candidates_added := added, candidates_skipped := skipped,
            candidates_with_x := withx,
            error := some "Job was deleted during sourcing" }
      else .error e

/-- The external identity of a raw X search result is already present: an
existing candidate carries its X user id, or its bio links to a GitHub url
or handle carried by an existing candidate (the two dedup queries of the
X sourcing path). -/
def xIdentityKnown (db : SrcDB) (u : XUser) : Prop :=
  (∃ uid, u.id = some uid ∧ ∃ c ∈ db.candidates, c.x_user_id = some uid) ∨
  (∃ gurl, (extract_urls_from_user u).1 = some gurl ∧
    ∃ c ∈ db.candidates,
      c.github_url = some gurl ∨
      (_extract_github_username gurl ≠ "" ∧
        c.github_username = some (_extract_github_username gurl)))

/-- The external identity of a raw GitHub profile is already present: an
existing candidate has a github_url containing the login, or carries the
profile GitHub id, or — when the profile links an X handle — the X user
fetched for that handle has the id stored on an existing candidate (the
dedup queries of the GitHub sourcing path). -/
def ghIdentityKnown (db : SrcDB) (login : String) (prof : Option GhProfile)
    (xf : Option XUser) : Prop :=
  (∃ c ∈ db.candidates, ∃ url, c.github_url = some url ∧
    isSubCL login.data url.data = true) ∨
  (∃ p, prof = some p ∧ ∃ c ∈ db.candidates, c.github_id = some (githubIdStr p)) ∨
  (∃ p, prof = some p ∧ p.x_username.isSome = true ∧
    ∃ xu, xf = some xu ∧ ∃ xid, xu.id = some xid ∧ xid ≠ "" ∧
      ∃ c ∈ db.candidates, c.x_user_id = some xid)

/-- The candidate table after a GitHub sourcing step (empty on a raised
storage error). -/
def ghResCandidates : Except String GhStepRes → List Candidate
  | .ok (.next db _ _ _) => db.candidates
  | .ok (.jobGone db _ _ _) => db.candidates
  | .error _ => []

/-- A store with one X-sourced candidate alice and one live job j. -/
def aliceDB : SrcDB :=
  { jobs := ["j"],
    candidates := [{ id := 0, x_user_id := some "123", x_username := some "alice" }],
    links := [], next_id := 1 }

/-- A GitHub profile for a distinct login whose only shared identity with
alice is the cross-channel X handle in its profile links. -/
def bobdevProfile : GhProfile :=
  { github_id := some "999", developer_score := some 80,
    x_username := some "alice", github_url := some "https://github.com/bobdev" }

/-! ## Theorems -/

example : normalize_role_type "Senior iOS Engineer" = "ios_engineer" := by decide
example : normalize_role_type "Machine Learning Engineer" = "ml_engineer" := by decide
example : normalize_role_type "" = "general_engineer" := by decide
example : normalize_role_type "Product Manager" = "product_manager" := by decide

/-- C6 (amended): normalize_role_type is deterministic, and the second
application is the identity on every title whose normalization lands in a
canonical role containing one of its own mapping keywords (ios, android,
frontend, backend, fullstack, devops, sre, platform, python and rust
engineer roles). Full idempotence fails: see the counterexample. -/
theorem normalize_role_type_deterministic_and_selfFixed :
    (∀ t₁ t₂ : String, t₁ = t₂ → normalize_role_type t₁ = normalize_role_type t₂) ∧
    (∀ t : String, normalize_role_type t ∈ selfFixedRoles →
      normalize_role_type (normalize_role_type t) = normalize_role_type t) := by
  constructor
  · intro t₁ t₂ h
    rw [h]
  · intro t h
    simp only [selfFixedRoles, List.mem_cons, List.not_mem_nil, or_false] at h
    rcases h with h | h | h | h | h | h | h | h | h | h <;> rw [h] <;> decide

/-- C6 counterexample: a title hitting the machine-learning mapping
normalizes to ml_engineer, which re-normalizes to mlengineer (the fallback
slugifier strips the underscore), so the function is not idempotent. -/
theorem normalize_role_type_not_idempotent :
    normalize_role_type "Machine Learning Engineer" = "ml_engineer" ∧
    normalize_role_type (normalize_role_type "Machine Learning Engineer") = "mlengineer" ∧
    normalize_role_type (normalize_role_type "Machine Learning Engineer") ≠
      normalize_role_type "Machine Learning Engineer" := by
  refine ⟨by decide, by decide, by decide⟩

/-- Witness for the C6 theorem at the title Senior iOS Engineer. -/
theorem normalize_role_type_selfFixed_witness :
    normalize_role_type (normalize_role_type "Senior iOS Engineer") =
      normalize_role_type "Senior iOS Engineer" :=
  normalize_role_type_deterministic_and_selfFixed.2 "Senior iOS Engineer" (by decide)

/-- C3: when the learned pattern is absent, or its confidence is below the
0.2 trust threshold, calculate_memory_adjusted_score returns the base score
unmodified together with an empty adjustment list. -/
theorem untrusted_pattern_returns_base_score (candidate : Candidate) (base_score : ℚ)
    (pattern : Option PatternSnapshot)
    (h : pattern = none ∨ ∃ p, pattern = some p ∧ p.confidence < 1/5) :
    calculate_memory_adjusted_score candidate base_score pattern = (base_score, []) := by
  rcases h with h | ⟨p, hp, hc⟩
  · rw [h]; rfl
  · rw [hp]
    simp only [calculate_memory_adjusted_score, if_pos hc]

/-- Witness for the C3 theorem: a pattern with confidence 0.1 leaves the
base score 42 unmodified. -/
theorem untrusted_pattern_returns_base_score_witness :
    calculate_memory_adjusted_score {} 42 (some { confidence := 1/10 }) = (42, []) :=
  untrusted_pattern_returns_base_score {} 42 (some { confidence := 1/10 })
    (Or.inr ⟨{ confidence := 1/10 }, rfl, by norm_num⟩)

/-- C2 (amended): for every base score already within [0, 100],
calculate_memory_adjusted_score returns a final score in [0, 100]; the
trusted-pattern branch clamps, and the untrusted branch passes the base
score through. The unconditional claim fails: see the counterexample. -/
theorem memory_adjusted_score_bounded (candidate : Candidate) (base_score : ℚ)
    (pattern : Option PatternSnapshot)
    (h0 : 0 ≤ base_score) (h100 : base_score ≤ 100) :
    0 ≤ (calculate_memory_adjusted_score candidate base_score pattern).1 ∧
    (calculate_memory_adjusted_score candidate base_score pattern).1 ≤ 100 := by
  match pattern with
  | none => exact ⟨h0, h100⟩
  | some pat =>
    by_cases hc : pat.confidence < 1/5
    · simp only [calculate_memory_adjusted_score, if_pos hc]
      exact ⟨h0, h100⟩
    · simp only [calculate_memory_adjusted_score, if_neg hc]
      refine ⟨le_max_left 0 _, max_le (by norm_num) (min_le_left _ _)⟩

/-- C2 counterexample: with no pattern (or an untrusted one) the base score
is returned without clamping, so a base score of 150 escapes [0, 100]. -/
theorem memory_adjusted_score_unbounded :
    (calculate_memory_adjusted_score {} 150 none).1 = 150 ∧
    ¬(calculate_memory_adjusted_score {} 150 none).1 ≤ 100 := by
  refine ⟨rfl, by norm_num [calculate_memory_adjusted_score]⟩

/-- Witness for the C2 theorem at base score 50 with no pattern. -/
theorem memory_adjusted_score_bounded_witness :
    0 ≤ (calculate_memory_adjusted_score {} 50 none).1 ∧
    (calculate_memory_adjusted_score {} 50 none).1 ≤ 100 :=
  memory_adjusted_score_bounded {} 50 none (by norm_num) (by norm_num)

theorem storeGet_storeSet (store : PatternStore) (rt : String) (p : RoleSuccessPattern) :
    storeGet (storeSet store rt p) rt = some p := by
  induction store with
  | nil => simp [storeGet, storeSet, List.find?]
  | cons kv rest ih =>
    by_cases h : kv.1 = rt
    · simp [storeGet, storeSet, h, List.find?]
    · simp only [storeSet, if_neg h]
      simpa [storeGet, List.find?, h] using ih

theorem ups_total_actions (p : RoleSuccessPattern) (s : Signals) (a : String) :
    (_update_positive_signals p s a).total_actions = p.total_actions := rfl

theorem uns_total_actions (p : RoleSuccessPattern) (s : Signals) :
    (_update_negative_signals p s).total_actions = p.total_actions := by
  unfold _update_negative_signals
  rfl

/-- C4: after every recorded action on an existing job and candidate, the
pattern row for the normalized role type has total_actions bumped by one and
confidence equal to min(1, total_actions / 50); hence confidence is 1/2 at
25 actions, exactly 1 from 50 on, and it never decreases relative to a
predecessor state satisfying the same confidence equation. -/
theorem pattern_confidence_ramp (db : MemDB) (store : PatternStore)
    (jid cid act title : String) (cand : Candidate)
    (hj : assocGet db.jobs jid = some title)
    (hc : assocGet db.candidates cid = some cand) :
    ∃ p', storeGet (update_pattern_from_action db store jid cid act)
        (normalize_role_type title) = some p' ∧
      p'.total_actions =
        (get_or_create_pattern store (normalize_role_type title)).total_actions + 1 ∧
      p'.confidence = min 1 ((p'.total_actions : ℚ) / 50) ∧
      (p'.total_actions = 25 → p'.confidence = 1/2) ∧
      (50 ≤ p'.total_actions → p'.confidence = 1) ∧
      (∀ p₀, storeGet store (normalize_role_type title) = some p₀ →
        p₀.confidence = min 1 ((p₀.total_actions : ℚ) / 50) →
        p₀.confidence ≤ p'.confidence) := by
  obtain ⟨p', hget, htot, hconf⟩ :
      ∃ p', storeGet (update_pattern_from_action db store jid cid act)
          (normalize_role_type title) = some p' ∧
        p'.total_actions =
          (get_or_create_pattern store (normalize_role_type title)).total_actions + 1 ∧
        p'.confidence = min 1 ((p'.total_actions : ℚ) / 50) := by
    simp only [update_pattern_from_action, hj, hc]
    refine ⟨_, storeGet_storeSet _ _ _, ?_, rfl⟩
    dsimp only
    congr 1
    repeat' split
    all_goals simp [ups_total_actions, uns_total_actions]
  refine ⟨p', hget, htot, hconf, ?_, ?_, ?_⟩
  · intro h
    rw [hconf, h]
    rw [show ((25 : Nat) : ℚ) / 50 = 1/2 by norm_num]
    exact min_eq_right (by norm_num)
  · intro h
    rw [hconf, min_eq_left]
    rw [le_div_iff₀ (by norm_num)]
    norm_num
    exact_mod_cast h
  · intro p₀ h₀ hf₀
    have hbase : get_or_create_pattern store (normalize_role_type title) = p₀ := by
      simp [get_or_create_pattern, h₀]
    rw [hf₀, hconf, htot, hbase]
    refine min_le_min le_rfl ?_
    have hle : ((p₀.total_actions : ℚ)) ≤ ((p₀.total_actions + 1 : Nat) : ℚ) := by
      push_cast
      linarith
    linarith

/-- Witness for the C4 theorem: first hire action for a fresh iOS role. -/
theorem pattern_confidence_ramp_witness :
    ∃ p', storeGet (update_pattern_from_action
        { jobs := [("j1", "iOS Engineer")], candidates := [("c1", ({} : Candidate))] }
        [] "j1" "c1" "hire") (normalize_role_type "iOS Engineer") = some p' ∧
      p'.total_actions =
        (get_or_create_pattern [] (normalize_role_type "iOS Engineer")).total_actions + 1 ∧
      p'.confidence = min 1 ((p'.total_actions : ℚ) / 50) ∧
      (p'.total_actions = 25 → p'.confidence = 1/2) ∧
      (50 ≤ p'.total_actions → p'.confidence = 1) ∧
      (∀ p₀, storeGet [] (normalize_role_type "iOS Engineer") = some p₀ →
        p₀.confidence = min 1 ((p₀.total_actions : ℚ) / 50) →
        p₀.confidence ≤ p'.confidence) :=
  pattern_confidence_ramp
    { jobs := [("j1", "iOS Engineer")], candidates := [("c1", {})] }
    [] "j1" "c1" "hire" "iOS Engineer" {} rfl rfl

/-- C9 (amended): on every positive action carrying a dev-score, repo-count
or followers value x, the corresponding running average moves to
avg + (x - avg) / n with n the positive-action count including this action,
provided the stored average is present and nonzero. A stored average of
exactly zero is treated by the source like an absent one (Python or) and the
average restarts at x: see the counterexample. -/
theorem running_average_incremental_mean (p : RoleSuccessPattern) (s : Signals)
    (act : String) (hact : act = "hire" ∨ act = "shortlist" ∨ act = "contact") :
    (_update_positive_signals p s act).hire_count +
        (_update_positive_signals p s act).shortlist_count =
      p.hire_count + p.shortlist_count + 1 ∧
    (∀ x a, s.dev_score = some x → p.avg_dev_score = some a → a ≠ 0 →
      (_update_positive_signals p s act).avg_dev_score =
        some (a + (x - a) / (((_update_positive_signals p s act).hire_count +
          (_update_positive_signals p s act).shortlist_count : Nat) : ℚ))) ∧
    (∀ x a, s.repo_count = some x → p.avg_repo_count = some a → a ≠ 0 →
      (_update_positive_signals p s act).avg_repo_count =
        some (a + ((x : ℚ) - a) / (((_update_positive_signals p s act).hire_count +
          (_update_positive_signals p s act).shortlist_count : Nat) : ℚ))) ∧
    (∀ x a, s.followers = some x → p.avg_followers = some a → a ≠ 0 →
      (_update_positive_signals p s act).avg_followers =
        some (a + ((x : ℚ) - a) / (((_update_positive_signals p s act).hire_count +
          (_update_positive_signals p s act).shortlist_count : Nat) : ℚ))) := by
  have hcount : (_update_positive_signals p s act).hire_count +
      (_update_positive_signals p s act).shortlist_count =
      p.hire_count + p.shortlist_count + 1 := by
    rcases hact with h | h | h <;> subst h <;>
      simp [_update_positive_signals] <;> omega
  have hn : ((p.hire_count + p.shortlist_count + 1 : Nat) : ℚ) ≠ 0 := by
    push_cast
    positivity
  refine ⟨hcount, ?_, ?_, ?_⟩
  · intro x a hx ha ha0
    rw [hcount]
    rcases hact with h | h | h <;> subst h <;>
      simp only [_update_positive_signals, hx, ha, orQ, if_neg ha0] <;>
      simp only [String.reduceEq, if_true, if_false, reduceIte, Option.some.injEq] <;>
      push_cast <;>
      field_simp <;>
      ring
  · intro x a hx ha ha0
    rw [hcount]
    rcases hact with h | h | h <;> subst h <;>
      simp only [_update_positive_signals, hx, ha, orQ, if_neg ha0] <;>
      simp only [String.reduceEq, if_true, if_false, reduceIte, Option.some.injEq] <;>
      push_cast <;>
      field_simp <;>
      ring
  · intro x a hx ha ha0
    rw [hcount]
    rcases hact with h | h | h <;> subst h <;>
      simp only [_update_positive_signals, hx, ha, orQ, if_neg ha0] <;>
      simp only [String.reduceEq, if_true, if_false, reduceIte, Option.some.injEq] <;>
      push_cast <;>
      field_simp <;>
      ring

/-- Witness for the C9 theorem: a hire with dev-score 80 against a stored
average of 60 and no prior positive actions. -/
theorem running_average_incremental_mean_witness :
    (_update_positive_signals { role_type := "r", avg_dev_score := some 60 }
        { dev_score := some (80 : ℚ) } "hire").avg_dev_score =
      some ((60 : ℚ) + ((80 : ℚ) - 60) /
        (((_update_positive_signals { role_type := "r", avg_dev_score := some 60 }
            { dev_score := some (80 : ℚ) } "hire").hire_count +
          (_update_positive_signals { role_type := "r", avg_dev_score := some 60 }
            { dev_score := some (80 : ℚ) } "hire").shortlist_count : Nat) : ℚ)) :=
  (running_average_incremental_mean
      { role_type := "r", avg_dev_score := some 60 }
      { dev_score := some (80 : ℚ) } "hire" (Or.inl rfl)).2.1
    80 60 rfl rfl (by norm_num)

/-- C9 counterexample: a stored average of exactly 0 is falsy in Python, so
the second positive action restarts the average at the new value 10 instead
of moving to 0 + (10 - 0) / 2 = 5. -/
theorem running_average_zero_restart :
    (_update_positive_signals
        { role_type := "r", hire_count := 1, avg_followers := some 0 }
        { followers := some 10 } "hire").avg_followers = some 10 ∧
    (0 : ℚ) + ((10 : ℚ) - 0) / 2 = 5 ∧ ((10 : ℚ) ≠ 5) := by
  refine ⟨?_, by norm_num, by norm_num⟩
  norm_num [_update_positive_signals, orQ]

/-- C5: rebuilding from the recruiter-action log clears every pattern and
replays the log in order through update_pattern_from_action, giving exactly
the store produced by incrementally applying the same actions in order from
the initial empty store: every role type holds the same counters, averages,
confidence and top-N lists (equality is exact, so membership agrees a
fortiori), whatever store was discarded by the clearing step. -/
theorem rebuild_matches_incremental_replay (db : MemDB) (discarded : PatternStore)
    (log : List RecruiterAction) :
    (rebuild_patterns_from_history db discarded log).1 = incrementalReplay db [] log ∧
    (∀ rt, storeGet (rebuild_patterns_from_history db discarded log).1 rt =
      storeGet (incrementalReplay db [] log) rt) ∧
    (rebuild_patterns_from_history db discarded log).2.2 = log.length :=
  ⟨rfl, fun _ => rfl, rfl⟩

/-- C7 evidence: the action-recording endpoint appends the RecruiterAction
row and updates the link status, but leaves the role_success_patterns table
exactly as it was: no call into the pattern-update path exists, so a
recorded hire, shortlist, contact or reject changes no pattern. -/
theorem track_recruiter_action_preserves_patterns (st : RecState)
    (jid cid act : String) (tss : Option Nat) :
    ((track_recruiter_action st jid cid act tss).getD st).patterns = st.patterns := by
  unfold track_recruiter_action
  cases assocGet st.jobs jid <;> cases assocGet st.candidates cid <;> rfl

/-- C10: holding the non-keyword-derived features of the profile fixed
(username, metrics, github cross-link presence, negative-keyword matches),
increasing the matched positive keywords of the bio (the role-keyword hit
and the tech-term count) never decreases quick_dev_score. -/
theorem quick_dev_score_keyword_monotone (u₁ u₂ : XUser) (tweet_text : String)
    (husern : u₁.username = u₂.username)
    (hfolrs : u₁.followers_count = u₂.followers_count)
    (hfolng : u₁.following_count = u₂.following_count)
    (hdev : devKeywordHit (lowerCL (u₁.description.getD "")) = true →
      devKeywordHit (lowerCL (u₂.description.getD "")) = true)
    (htech : techTermCount (lowerCL (u₁.description.getD "")) ≤
      techTermCount (lowerCL (u₂.description.getD "")))
    (hgit : githubInBio (lowerCL (u₁.description.getD "")) =
      githubInBio (lowerCL (u₂.description.getD "")))
    (hneg : negTermCount (lowerCL (u₁.description.getD "")) =
      negTermCount (lowerCL (u₂.description.getD ""))) :
    quick_dev_score u₁ tweet_text ≤ quick_dev_score u₂ tweet_text := by
  unfold quick_dev_score
  dsimp only
  rw [husern, hfolrs, hfolng, hgit, hneg]
  have h15 : (if devKeywordHit (lowerCL (u₁.description.getD "")) then (15 : Int) else 0) ≤
      (if devKeywordHit (lowerCL (u₂.description.getD "")) then (15 : Int) else 0) := by
    by_cases h : devKeywordHit (lowerCL (u₁.description.getD "")) = true
    · rw [if_pos h, if_pos (hdev h)]
    · rw [if_neg h]
      split <;> norm_num
  have htech5 : ((min (techTermCount (lowerCL (u₁.description.getD "")) * 5) 20 : Nat) : Int) ≤
      ((min (techTermCount (lowerCL (u₂.description.getD "")) * 5) 20 : Nat) : Int) := by
    have := min_le_min (Nat.mul_le_mul_right 5 htech) (le_refl 20)
    exact_mod_cast this
  have hmono : ∀ a b : Int, a ≤ b → max 0 (min 100 a) ≤ max 0 (min 100 b) := by
    intro a b hab
    exact max_le_max (le_refl 0) (min_le_min (le_refl 100) hab)
  apply hmono
  omega

/-- Witness for the C10 theorem: adding the python and developer keywords
to a bio with no other signal changes. -/
theorem quick_dev_score_keyword_monotone_witness :
    quick_dev_score { username := "alice", description := some "i like turtles" } "" ≤
      quick_dev_score
        { username := "alice", description := some "python developer, i like turtles" }
        "" :=
  quick_dev_score_keyword_monotone
    { username := "alice", description := some "i like turtles" }
    { username := "alice", description := some "python developer, i like turtles" }
    "" rfl rfl rfl (by decide) (by decide) (by decide) (by decide)

theorem commitLink_ok (db : SrcDB) (jid : String) (cid : Nat) (h : jid ∈ db.jobs) :
    commitLink db jid cid = .ok { db with links := db.links ++ [(jid, cid)] } := by
  simp [commitLink, h]

theorem xstep_dedup_aux (db : SrcDB) (jid : String) (seen : List String) (u : XUser)
    (tw : String) (cls : Classification) (excl : Bool)
    (hjob : jid ∈ db.jobs) (hid : xIdentityKnown db u) :
    ∃ out : XStepOut, xStep db jid seen u tw cls excl = .ok out ∧
      out.db.candidates = db.candidates ∧
      (out.db.links = db.links ∨
        ∃ cid, out.db.links = db.links ++ [(jid, cid)] ∧ (jid, cid) ∉ db.links) := by
  unfold xStep
  cases hu : u.id with
  | none => exact ⟨_, rfl, rfl, Or.inl rfl⟩
  | some uid =>
    dsimp only
    by_cases hseen : uid ∈ seen
    · simp only [if_pos hseen]
      exact ⟨_, rfl, rfl, Or.inl rfl⟩
    · simp only [if_neg hseen]
      by_cases hq : quick_dev_score u tw < 30
      · simp only [if_pos hq]
        exact ⟨_, rfl, rfl, Or.inl rfl⟩
      · simp only [if_neg hq]
        cases hfx : db.candidates.find? (fun c => c.x_user_id = some uid) with
        | some ex =>
          dsimp only
          by_cases hl : (jid, ex.id) ∈ db.links
          · simp only [if_pos hl]
            exact ⟨_, rfl, rfl, Or.inl rfl⟩
          · simp only [if_neg hl, commitLink_ok db jid ex.id hjob]
            exact ⟨_, rfl, rfl, Or.inr ⟨ex.id, rfl, hl⟩⟩
        | none =>
          dsimp only
          split
          · exact ⟨_, rfl, rfl, Or.inl rfl⟩
          · split
            · exact ⟨_, rfl, rfl, Or.inl rfl⟩
            · cases hgm : (if (parse_user_to_candidate_data u).github_url.isSome then
                  db.candidates.find? (fun c =>
                    (c.github_url.isSome &&
                      c.github_url = (parse_user_to_candidate_data u).github_url) ||
                    (truthyS (match (parse_user_to_candidate_data u).github_url with
                        | some url => some (_extract_github_username url)
                        | none => none) &&
                      c.github_username.isSome &&
                      c.github_username =
                        (match (parse_user_to_candidate_data u).github_url with
                          | some url => some (_extract_github_username url)
                          | none => none)))
                else none) with
              | some existing =>
                dsimp only
                by_cases hl : (jid, existing.id) ∈ db.links
                · simp only [if_pos hl]
                  exact ⟨_, rfl, rfl, Or.inl rfl⟩
                · simp only [if_neg hl, commitLink_ok db jid existing.id hjob]
                  exact ⟨_, rfl, rfl, Or.inr ⟨existing.id, rfl, hl⟩⟩
              | none =>
                exfalso
                rcases hid with ⟨uid', huid', c, hc, hcx⟩ | ⟨gurl, hgu, c, hc, hmatch⟩
                · rw [hu] at huid'
                  injection huid' with huid'
                  subst huid'
                  have := List.find?_eq_none.mp hfx c hc
                  simp [hcx] at this
                · have hurl : (parse_user_to_candidate_data u).github_url = some gurl := by
                    simpa [parse_user_to_candidate_data] using hgu
                  rw [hurl] at hgm
                  simp only [Option.isSome_some, if_true, if_pos] at hgm
                  have := List.find?_eq_none.mp hgm c hc
                  rcases hmatch with hm | ⟨hne, hm⟩
                  · simp [hm, truthyS] at this
                  · simp only [hm, truthyS, Bool.and_eq_true, Bool.or_eq_true,
                      decide_eq_true_eq, Option.isSome_some] at this
                    have hbe : (!(_extract_github_username gurl).isEmpty) = true := by
                      cases hE : (_extract_github_username gurl).isEmpty with
                      | false => rfl
                      | true => exact absurd ((String.isEmpty_iff _).mp hE) hne
                    exact this (Or.inr ⟨⟨hbe, trivial⟩, trivial⟩)

theorem ghstep_dedup_aux (db : SrcDB) (jid login : String) (prof : Option GhProfile)
    (xf : Option XUser) (cls : Classification) (mds : Int) (rx : Bool)
    (hjob : jid ∈ db.jobs) (hid : ghIdentityKnown db login prof xf) :
    ∃ db' a s w, ghStep db jid login prof xf cls mds rx = .ok (.next db' a s w) ∧
      db'.candidates = db.candidates ∧
      (db'.links = db.links ∨
        ∃ cid, db'.links = db.links ++ [(jid, cid)] ∧ (jid, cid) ∉ db.links) := by
  unfold ghStep
  split
  · exact ⟨db, 0, 0, 0, rfl, rfl, Or.inl rfl⟩
  next hle =>
  split
  next existing hf1 =>
    split
    next hl => exact ⟨db, 0, 0, 0, rfl, rfl, Or.inl rfl⟩
    next hl =>
      rw [commitLink_ok db jid existing.id hjob]
      exact ⟨_, 0, 0, 0, rfl, rfl, Or.inr ⟨existing.id, rfl, hl⟩⟩
  next hf1 =>
  split
  next => exact ⟨db, 0, 1, 0, rfl, rfl, Or.inl rfl⟩
  next p =>
  dsimp only
  split
  next hds => exact ⟨db, 0, 1, 0, rfl, rfl, Or.inl rfl⟩
  next hds =>
  split
  next hxsome =>
    split
    next hskip => exact ⟨db, 0, 1, _, rfl, rfl, Or.inl rfl⟩
    next hskip =>
    split
    next hreq => exact ⟨db, 0, 1, _, rfl, rfl, Or.inl rfl⟩
    next hreq =>
    split
    next existing hf2 =>
      split
      next hl => exact ⟨db, 0, 0, _, rfl, rfl, Or.inl rfl⟩
      next hl =>
        rw [commitLink_ok db jid existing.id hjob]
        exact ⟨_, 1, 0, _, rfl, rfl, Or.inr ⟨existing.id, rfl, hl⟩⟩
    next hf2 =>
    exfalso
    rcases hid with ⟨c, hc, url, hcu, hsub⟩ |
        ⟨p', hp', c, hc, hcg⟩ |
        ⟨p', hp', hxs, xu, hxf, xid, hxid, hxid0, c, hc, hcx⟩
    · have := List.find?_eq_none.mp hf1 c hc
      rw [hcu] at this
      simp [hsub] at this
    · injection hp' with hp'
      subst hp'
      have := List.find?_eq_none.mp hf2 c hc
      simp [hcg] at this
    · injection hp' with hp'
      subst hp'
      have := List.find?_eq_none.mp hf2 c hc
      simp only [hxf, hxid, hcx, truthyS, Bool.and_eq_true,
        Bool.or_eq_true, decide_eq_true_eq, Option.isSome_some,
        not_or, not_and] at this
      have hbe : (!xid.isEmpty) = true := by
        cases hE : xid.isEmpty with
        | false => rfl
        | true => exact absurd ((String.isEmpty_iff _).mp hE) hxid0
      simp [hbe] at this
  next hxnone =>
    split
    next hskip => exact ⟨db, 0, 1, _, rfl, rfl, Or.inl rfl⟩
    next hskip =>
    split
    next hreq => exact ⟨db, 0, 1, _, rfl, rfl, Or.inl rfl⟩
    next hreq =>
    split
    next existing hf2 =>
      split
      next hl => exact ⟨db, 0, 0, _, rfl, rfl, Or.inl rfl⟩
      next hl =>
        rw [commitLink_ok db jid existing.id hjob]
        exact ⟨_, 1, 0, _, rfl, rfl, Or.inr ⟨existing.id, rfl, hl⟩⟩
    next hf2 =>
    exfalso
    rcases hid with ⟨c, hc, url, hcu, hsub⟩ |
        ⟨p', hp', c, hc, hcg⟩ |
        ⟨p', hp', hxs, xu, hxf, xid, hxid, hxid0, c, hc, hcx⟩
    · have := List.find?_eq_none.mp hf1 c hc
      rw [hcu] at this
      simp [hsub] at this
    · injection hp' with hp'
      subst hp'
      have := List.find?_eq_none.mp hf2 c hc
      simp [hcg] at this
    · injection hp' with hp'
      subst hp'
      exact hxnone hxs

/-- C1 (amended): ingesting a raw profile whose external identity already
belongs to an existing Candidate never creates a second Candidate row and
adds at most one missing JobCandidate link for the (job, candidate) pair —
unconditionally on the X channel (identity by X user id or by the GitHub
url or handle extracted from the profile links), and on the GitHub channel
when the identity is the github_url containing the login, the GitHub id, or
an X handle whose user lookup succeeded and returned the id stored on an
existing candidate. When that X lookup fails, the GitHub path can duplicate
a handle: see the counterexample. -/
theorem sourcing_dedup_invariant :
    (∀ (db : SrcDB) (jid : String) (seen : List String) (u : XUser) (tw : String)
        (cls : Classification) (excl : Bool), jid ∈ db.jobs → xIdentityKnown db u →
      ∃ out : XStepOut, xStep db jid seen u tw cls excl = .ok out ∧
        out.db.candidates = db.candidates ∧
        (out.db.links = db.links ∨
          ∃ cid, out.db.links = db.links ++ [(jid, cid)] ∧ (jid, cid) ∉ db.links)) ∧
    (∀ (db : SrcDB) (jid login : String) (prof : Option GhProfile) (xf : Option XUser)
        (cls : Classification) (mds : Int) (rx : Bool),
      jid ∈ db.jobs → ghIdentityKnown db login prof xf →
      ∃ db' a s w, ghStep db jid login prof xf cls mds rx = .ok (.next db' a s w) ∧
        db'.candidates = db.candidates ∧
        (db'.links = db.links ∨
          ∃ cid, db'.links = db.links ++ [(jid, cid)] ∧ (jid, cid) ∉ db.links)) :=
  ⟨xstep_dedup_aux, ghstep_dedup_aux⟩

/-- Witness for the C1 theorem: re-sourcing the X user id 123 already stored
on candidate 0 adds one link and no candidate row. -/
theorem sourcing_dedup_invariant_witness :
    ∃ out : XStepOut,
      xStep aliceDB "j" [] { id := some "123", username := "alice" } "" {} false =
        .ok out ∧
      out.db.candidates = aliceDB.candidates ∧
      (out.db.links = aliceDB.links ∨
        ∃ cid, out.db.links = aliceDB.links ++ [("j", cid)] ∧ ("j", cid) ∉ aliceDB.links) :=
  sourcing_dedup_invariant.1 aliceDB "j" [] { id := some "123", username := "alice" }
    "" {} false (by decide)
    (Or.inl ⟨"123", rfl,
      ⟨{ id := 0, x_user_id := some "123", x_username := some "alice" },
        by simp [aliceDB], rfl⟩⟩)

/-- C1 counterexample: the GitHub path with a failed X-user lookup creates a
second Candidate row carrying the handle alice, although that cross-channel
handle already belongs to candidate 0. -/
theorem gh_cross_handle_duplicate :
    (aliceDB.candidates.filter (fun c => c.x_username = some "alice")).length = 1 ∧
    ((ghResCandidates (ghStep aliceDB "j" "bobdev" (some bobdevProfile) none {} 50
        false)).filter (fun c => c.x_username = some "alice")).length = 2 :=
  ⟨by decide, by decide⟩

theorem commitLink_err (db : SrcDB) (jid : String) (cid : Nat) (h : jid ∉ db.jobs) :
    commitLink db jid cid = .error fkErr := by
  simp [commitLink, h]

theorem ghstep_no_job (db : SrcDB) (jid login : String) (prof : Option GhProfile)
    (xf : Option XUser) (cls : Classification) (mds : Int) (rx : Bool)
    (h : jid ∉ db.jobs) :
    (∃ s w, ghStep db jid login prof xf cls mds rx = .ok (.next db 0 s w)) ∨
    (∃ w, ghStep db jid login prof xf cls mds rx = .ok (.jobGone db 0 0 w)) ∨
    ghStep db jid login prof xf cls mds rx = .error fkErr := by
  unfold ghStep
  split
  · exact Or.inl ⟨0, 0, rfl⟩
  next hle =>
  split
  next existing hf1 =>
    split
    next hl => exact Or.inl ⟨0, 0, rfl⟩
    next hl =>
      rw [commitLink_err db jid existing.id h]
      exact Or.inr (Or.inr rfl)
  next hf1 =>
  split
  next => exact Or.inl ⟨1, 0, rfl⟩
  next p =>
  dsimp only
  split
  next => exact Or.inl ⟨1, 0, rfl⟩
  next =>
  split
  next hxsome =>
    split
    next => exact Or.inl ⟨1, _, rfl⟩
    next =>
    split
    next => exact Or.inl ⟨1, _, rfl⟩
    next =>
    split
    next existing hf2 =>
      split
      next hl => exact Or.inl ⟨0, _, rfl⟩
      next hl =>
        rw [commitLink_err db jid existing.id h]
        exact Or.inr (Or.inr rfl)
    next hf2 =>
      exact Or.inr (Or.inl ⟨_, rfl⟩)
  next hxnone =>
    split
    next => exact Or.inl ⟨1, _, rfl⟩
    next =>
    split
    next => exact Or.inl ⟨1, _, rfl⟩
    next =>
    split
    next existing hf2 =>
      split
      next hl => exact Or.inl ⟨0, _, rfl⟩
      next hl =>
        rw [commitLink_err db jid existing.id h]
        exact Or.inr (Or.inr rfl)
    next hf2 =>
      exact Or.inr (Or.inl ⟨_, rfl⟩)

theorem ghloop_no_job (jid : String) (mds : Int) (rx : Bool) (evs : List GhEvent) :
    ∀ (db : SrcDB) (a s w : Nat), jid ∉ db.jobs →
    ∃ r, ghLoop db jid a s w mds rx evs = .ok r ∧
      r.db.candidates = db.candidates ∧ r.db.links = db.links ∧
      r.candidates_added = a ∧
      (r.error = none ∨ r.error = some "Job was deleted during sourcing") := by
  induction evs with
  | nil =>
    intro db a s w h
    exact ⟨_, rfl, rfl, rfl, rfl, Or.inl rfl⟩
  | cons e rest ih =>
    intro db a s w h
    cases e with
    | jobDeleted =>
      have herase : db.jobs.erase jid = db.jobs := List.erase_of_not_mem h
      obtain ⟨r, hr, h1, h2, h3, h4⟩ :=
        ih { db with jobs := db.jobs.erase jid } a s w (by rw [herase]; exact h)
      exact ⟨r, hr, h1, h2, h3, h4⟩
    | user login prof xf cls =>
      rcases ghstep_no_job db jid login prof xf cls mds rx h with
        ⟨s', w', hstep⟩ | ⟨w', hstep⟩ | hstep
      · obtain ⟨r, hr, h1, h2, h3, h4⟩ := ih db (a + 0) (s + s') (w + w') h
        refine ⟨r, ?_, h1, h2, h3.trans (Nat.add_zero a), h4⟩
        simp only [ghLoop, hstep]
        exact hr
      · have hres : ghLoop db jid a s w mds rx (GhEvent.user login prof xf cls :: rest) =
            .ok
              { db := db, candidates_added := a + 0, candidates_skipped := s + 0,
                candidates_with_x := w + w',
                error := some "Job was deleted during sourcing" } := by
          simp only [ghLoop, hstep]
        exact ⟨_, hres, rfl, rfl, rfl, Or.inr rfl⟩
      · have hres : ghLoop db jid a s w mds rx (GhEvent.user login prof xf cls :: rest) =
            .ok
              { db := db, candidates_added := a, candidates_skipped := s,
                candidates_with_x := w,
                error := some "Job was deleted during sourcing" } := by
          simp only [ghLoop, hstep]
          rw [if_pos (by decide)]
        exact ⟨_, hres, rfl, rfl, rfl, Or.inr rfl⟩

/-- C8 (amended): when the parent job is deleted mid-flight, the GitHub
sourcing run writes no further candidate or link, keeps the
candidates_added count accumulated so far, and finishes as a task result
whose error field reports the deletion when a write was attempted — it
never lets the storage error escape. The X sourcing run has no such
handling and re-raises the foreign-key error: see the counterexample. -/
theorem github_run_survives_job_deletion (db : SrcDB) (jid : String)
    (a s w : Nat) (mds : Int) (rx : Bool) (evs : List GhEvent)
    (hnd : db.jobs.Nodup) :
    ∃ r, ghLoop db jid a s w mds rx (GhEvent.jobDeleted :: evs) = .ok r ∧
      r.db.candidates = db.candidates ∧ r.db.links = db.links ∧
      r.candidates_added = a ∧
      (r.error = none ∨ r.error = some "Job was deleted during sourcing") := by
  have h : jid ∉ db.jobs.erase jid := fun hmem =>
    ((List.Nodup.mem_erase_iff hnd).mp hmem).1 rfl
  simpa only [ghLoop] using
    ghloop_no_job jid mds rx evs { db with jobs := db.jobs.erase jid } a s w h

/-- Witness for the C8 theorem: a deletion followed by one further GitHub
profile event, starting from one live job and empty counts. -/
theorem github_run_survives_job_deletion_witness :
    ∃ r, ghLoop { jobs := ["j"] } "j" 0 0 0 50 false
        [GhEvent.jobDeleted, GhEvent.user "bob" none none {}] = .ok r ∧
      r.db.candidates = (SrcDB.mk ["j"] [] [] 0).candidates ∧
      r.db.links = (SrcDB.mk ["j"] [] [] 0).links ∧
      r.candidates_added = 0 ∧
      (r.error = none ∨ r.error = some "Job was deleted during sourcing") :=
  github_run_survives_job_deletion { jobs := ["j"] } "j" 0 0 0 50 false
    [GhEvent.user "bob" none none {}] (by decide)

/-- C8 counterexample: the X sourcing run re-raises the foreign-key error
when the job vanishes mid-run and the next result would link an existing
candidate, instead of returning the partial counts. -/
theorem x_run_raises_on_job_deletion :
    xLoop aliceDB "j" [] 0 0 0 false
      [XEvent.jobDeleted,
        XEvent.result
          { id := some "123", username := "alice",
            description := some "software developer" } "" {}] = .error fkErr := rfl

end XPool
